import Mathlib

/-!
Verification of the metadb typed key-value store (octacian/metadb).

The development shallowly embeds the repository's Go code:

* the codec layer (`toValueType`, `toBlobString`, `fromBlobString`) together
  with the Go standard-library `strconv` routines it calls
  (`ParseBool`, `FormatBool`, `FormatInt`, `ParseInt`);
* the store layer (`Get`, `set`, `Set`, `ForceSet`, `Delete`, `existsEntry`,
  `getValueType`) with the SQL table modelled as an association list from
  names to rows.

Go `float64` values and their strconv formatting/parsing are external to
the repository; they are packaged as a `Float64Model` carrying the
documented strconv round-trip contract (FormatFloat with precision -1
produces the shortest text that ParseFloat reads back to the same value).
-/

namespace Metadb

/-- Error kinds of the package: `noEntry` models `ErrNoEntry{Name}`,
`failedToParse` models `ErrFailedToParse` (the wrapped cause is abstracted),
`unknownTypeTag` models the `"metadb: value type unrecognizable"` error,
`disallowedType` models the disallowed-type error from `toValueType` /
`toBlobString`, and `typeMismatch` models the
`"metadb: cannot change value for '<name>' to one of a different type"`
error. -/
inductive MErr where
  | noEntry : String → MErr
  | failedToParse : MErr
  | unknownTypeTag : MErr
  | disallowedType : MErr
  | typeMismatch : String → MErr
deriving DecidableEq, Repr

/-- Embedding of Go `strconv.FormatBool`. -/
def formatBool (b : Bool) : String := if b then "true" else "false"

/-- Embedding of Go `strconv.ParseBool`: accepts exactly
"1", "t", "T", "TRUE", "true", "True" for true and
"0", "f", "F", "FALSE", "false", "False" for false. -/
def parseBool (s : String) : Option Bool :=
  if s = "1" ∨ s = "t" ∨ s = "T" ∨ s = "TRUE" ∨ s = "true" ∨ s = "True" then
    some true
  else if s = "0" ∨ s = "f" ∨ s = "F" ∨ s = "FALSE" ∨ s = "false" ∨ s = "False" then
    some false
  else
    none

/-- Character for a single decimal digit. -/
def digitChar (d : Nat) : Char := Char.ofNat (48 + d)

/-- Numeric value of a decimal digit character, `none` for non-digits. -/
def charDigit (c : Char) : Option Nat :=
  if 48 ≤ c.toNat ∧ c.toNat ≤ 57 then some (c.toNat - 48) else none

/-- Little-endian decimal digits of a natural number, computed with explicit
fuel so that the definition is structurally recursive (kernel-computable).
The fuel is always instantiated with the number itself, which suffices since
the argument shrinks by division by ten at every step. -/
def natToDigitsAux : Nat → Nat → List Nat
  | _, 0 => []
  | 0, _ + 1 => []
  | fuel + 1, n + 1 => (n + 1) % 10 :: natToDigitsAux fuel ((n + 1) / 10)

/-- Little-endian decimal digits of a natural number (empty for zero). -/
def digitsLE (n : Nat) : List Nat := natToDigitsAux n n

/-- Value of a little-endian decimal digit list. -/
def valLE : List Nat → Nat
  | [] => 0
  | d :: ds => d + 10 * valLE ds

/-- Decimal representation of a natural number, as produced by Go
`strconv.FormatUint`/the unsigned part of `FormatInt`. -/
def natToString (n : Nat) : String :=
  if n = 0 then "0" else String.mk ((digitsLE n).reverse.map digitChar)

/-- Embedding of Go `strconv.FormatInt(int64(v), 10)`: decimal text with a
leading minus sign for negative values and no leading zeros. -/
def formatInt (v : Int) : String :=
  if v < 0 then "-" ++ natToString v.natAbs else natToString v.natAbs

/-- Accumulating decimal parser over a character list; fails on the first
non-digit character. -/
def parseDigitsAux : List Char → Nat → Option Nat
  | [], acc => some acc
  | c :: cs, acc =>
    match charDigit c with
    | some d => parseDigitsAux cs (acc * 10 + d)
    | none => none

/-- Parse a non-empty run of decimal digits. -/
def parseDigits (l : List Char) : Option Nat :=
  if l.isEmpty then none else parseDigitsAux l 0

/-- Embedding of Go `strconv.ParseInt(s, 10, 0)` on the character list of the
input: an optional sign followed by at least one decimal digit, rejected
(with either a syntax or a range error, both collapsed to `none`) when the
value falls outside the 64-bit signed range. -/
def parseIntChars : List Char → Option Int
  | [] => none
  | c :: cs =>
    if c = '-' then
      match parseDigits cs with
      | some n => if n ≤ 2 ^ 63 then some (-(n : Int)) else none
      | none => none
    else if c = '+' then
      match parseDigits cs with
      | some n => if n < 2 ^ 63 then some ((n : Nat) : Int) else none
      | none => none
    else
      match parseDigits (c :: cs) with
      | some n => if n < 2 ^ 63 then some ((n : Nat) : Int) else none
      | none => none

/-- Embedding of Go `strconv.ParseInt(s, 10, 0)`. -/
def parseInt (s : String) : Option Int := parseIntChars s.data

/-- Go `float64` values, their strconv formatting and their parsing are
external to this repository (standard library and SQL driver). A
`Float64Model` packages a type of float values together with the two
formatting routines the system meets — `formatE` for
`strconv.FormatFloat(f, 'E', -1, 64)` used by `toBlobString`, and `formatG`
for the driver-side shortest `'g'` formatting applied when a float is bound
as a query parameter — and `parse` for `strconv.ParseFloat(s, 64)`. The two
contract fields record the documented strconv guarantee that precision `-1`
yields the shortest text that parses back to the same 64-bit value. -/
structure Float64Model (F : Type) where
  formatE : F → String
  formatG : F → String
  parse : String → Option F
  parse_formatE : ∀ f, parse (formatE f) = some f
  parse_formatG : ∀ f, parse (formatG f) = some f

/-- In-memory Go value handed to the store through `interface\x7b\x7d`. The
first four constructors are the supported kinds (`bool`, `int`, `float64`,
`string`); `vOther` stands for a value of any other dynamic type (such as
the `[]string` used in the repository's tests), with a string describing
that type. -/
inductive Value (F : Type) where
  | vBool : Bool → Value F
  | vInt : Int → Value F
  | vFloat : F → Value F
  | vStr : String → Value F
  | vOther : String → Value F
deriving DecidableEq, Repr

/-- Whether a value is of one of the four supported kinds. -/
def Value.supported {F : Type} : Value F → Bool
  | .vOther _ => false
  | _ => true

/-- Whether an integer value fits the 64-bit signed range of the Go `int`
type it models (vacuously true for the other kinds). -/
def Value.inRange {F : Type} : Value F → Bool
  | .vInt v => decide (-(2 ^ 63 : Int) ≤ v) && decide (v < 2 ^ 63)
  | _ => true

/-- Embedding of `toValueType` (Instance version): the type tag of a value,
or the disallowed-type error. -/
def toValueType {F : Type} : Value F → Except MErr Nat
  | .vBool _ => .ok 0
  | .vInt _ => .ok 1
  | .vFloat _ => .ok 2
  | .vStr _ => .ok 3
  | .vOther _ => .error .disallowedType

/-- Embedding of `toBlobString` (package-level version): the serialized text
together with the type tag, or the disallowed-type error. -/
def toBlobString {F : Type} (M : Float64Model F) : Value F → Except MErr (String × Nat)
  | .vBool b => .ok (formatBool b, 0)
  | .vInt v => .ok (formatInt v, 1)
  | .vFloat f => .ok (M.formatE f, 2)
  | .vStr s => .ok (s, 3)
  | .vOther _ => .error .disallowedType

/-- Embedding of `fromBlobString`: dispatch on the type tag, parsing the
text with the strconv routine for that tag; parse failures are wrapped in
`failedToParse`, and a tag outside 0..3 yields `unknownTypeTag`. -/
def fromBlobString {F : Type} (M : Float64Model F) (value : String) (valueType : Nat) :
    Except MErr (Value F) :=
  if valueType = 0 then
    match parseBool value with
    | some b => .ok (.vBool b)
    | none => .error .failedToParse
  else if valueType = 1 then
    match parseInt value with
    | some v => .ok (.vInt v)
    | none => .error .failedToParse
  else if valueType = 2 then
    match M.parse value with
    | some f => .ok (.vFloat f)
    | none => .error .failedToParse
  else if valueType = 3 then
    .ok (.vStr value)
  else
    .error .unknownTypeTag

/-- Row of the metadata table: the `Value` blob read back as text, and the
`ValueType` tag. The auto-increment `ID` column plays no role in the logic
and is omitted. -/
structure Entry where
  value : String
  valueType : Nat
deriving DecidableEq, Repr

/-- State of the metadata table: an association list from the unique `Name`
column to the rest of the row. -/
abbrev DB := List (String × Entry)

/-- Point lookup: `SELECT ... FROM metadata WHERE Name = ?`. -/
def dbLookup (name : String) : DB → Option Entry
  | [] => none
  | (n, e) :: rest => if n = name then some e else dbLookup name rest

/-- Embedding of `UPDATE metadata SET Value = ? WHERE Name = ?`: only the
`Value` column of matching rows changes, the `ValueType` column keeps its
old content. -/
def dbUpdateValue (name text : String) : DB → DB
  | [] => []
  | (n, e) :: rest =>
    if n = name then (n, Entry.mk text e.valueType) :: dbUpdateValue name text rest
    else (n, e) :: dbUpdateValue name text rest

/-- Embedding of `DELETE FROM metadata WHERE Name = ?`. -/
def dbDelete (name : String) : DB → DB
  | [] => []
  | (n, e) :: rest =>
    if n = name then dbDelete name rest else (n, e) :: dbDelete name rest

/-- Modelled from the driver layer: when `set` passes the raw Go value as
an SQL parameter, the `database/sql` layer and the driver serialize it into
the BLOB column. A bool is bound as the integer one or zero, an int as its
decimal text, a float through the shortest `'g'` formatting, and a string
verbatim. The `vOther` case never reaches the driver because `set` rejects
such values first; the definition is total, so it is given a dummy result
there. -/
def driverSerialize {F : Type} (M : Float64Model F) : Value F → String
  | .vBool b => if b then "1" else "0"
  | .vInt v => formatInt v
  | .vFloat f => M.formatG f
  | .vStr s => s
  | .vOther _ => ""

/-- Embedding of `Instance.Exists`. -/
def existsEntry (name : String) (db : DB) : Bool := (dbLookup name db).isSome

/-- Embedding of `Instance.getValueType`. -/
def getValueType (name : String) (db : DB) : Except MErr Nat :=
  match dbLookup name db with
  | none => .error (.noEntry name)
  | some e => .ok e.valueType

/-- Embedding of `Instance.Get`: look the row up and decode it. -/
def Get {F : Type} (M : Float64Model F) (name : String) (db : DB) :
    Except MErr (Value F) :=
  match dbLookup name db with
  | none => .error (.noEntry name)
  | some e => fromBlobString M e.value e.valueType

/-- Embedding of the shared `Instance.set`: compute the new value's tag
(rejecting disallowed types), then either insert a fresh row carrying the
driver-serialized value and the computed tag, or — when a row exists —
reject a strict type change, or update only the `Value` column. -/
def set {F : Type} (M : Float64Model F) (name : String) (value : Value F)
    (force : Bool) (db : DB) : Except MErr Unit × DB :=
  match toValueType value with
  | .error err => (.error err, db)
  | .ok valueType =>
    match getValueType name db with
    | .error (.noEntry _) =>
      (.ok (), (name, Entry.mk (driverSerialize M value) valueType) :: db)
    | .error err => (.error err, db)
    | .ok currentType =>
      if force = false ∧ valueType ≠ currentType then
        (.error (.typeMismatch name), db)
      else
        (.ok (), dbUpdateValue name (driverSerialize M value) db)

/-- Embedding of `Instance.Set`. -/
def Set {F : Type} (M : Float64Model F) (name : String) (value : Value F) (db : DB) :
    Except MErr Unit × DB :=
  set M name value false db

/-- Embedding of `Instance.ForceSet`. -/
def ForceSet {F : Type} (M : Float64Model F) (name : String) (value : Value F) (db : DB) :
    Except MErr Unit × DB :=
  set M name value true db

/-- Embedding of `Instance.Delete`. The DELETE statement always runs; the
`sup` flag models whether the backend supports `RowsAffected` — when it does
not, the affected-row check degrades and the call reports success even if no
row existed. -/
def Delete (name : String) (sup : Bool) (db : DB) : Except MErr Unit × DB :=
  let affected : Nat := if existsEntry name db then 1 else 0
  let db2 := dbDelete name db
  if sup = false then (.ok (), db2)
  else if affected = 0 then (.error (.noEntry name), db2)
  else (.ok (), db2)

/-- Concrete `Float64Model` over a one-element float type, used by closed
witnesses; its two formats are the strconv output shapes for the float zero. -/
def float0 : Float64Model Unit where
  formatE := fun _ => "0E+00"
  formatG := fun _ => "0"
  parse := fun s => if s = "0E+00" ∨ s = "0" then some () else none
  parse_formatE := fun f => by cases f; simp
  parse_formatG := fun f => by cases f; simp

end Metadb

namespace Metadb

/-! ### Properties of the strconv embeddings -/

theorem charDigit_digitChar {d : Nat} (h : d < 10) : charDigit (digitChar d) = some d := by
  interval_cases d <;> decide

theorem digitChar_ne_minus {d : Nat} (h : d < 10) : digitChar d ≠ '-' := by
  interval_cases d <;> decide

theorem digitChar_ne_plus {d : Nat} (h : d < 10) : digitChar d ≠ '+' := by
  interval_cases d <;> decide

theorem parseBool_formatBool (b : Bool) : parseBool (formatBool b) = some b := by
  cases b <;> decide

theorem parseDigitsAux_map (L : List Nat) (acc : Nat) (h : ∀ d ∈ L, d < 10) :
    parseDigitsAux (L.map digitChar) acc =
      some (L.foldl (fun a d => a * 10 + d) acc) := by
  induction L generalizing acc with
  | nil => rfl
  | cons d ds ih =>
    have hd : d < 10 := h d (List.mem_cons_self _ _)
    have hds : ∀ x ∈ ds, x < 10 := fun x hx => h x (List.mem_cons_of_mem _ hx)
    simp only [List.map_cons, parseDigitsAux, charDigit_digitChar hd, List.foldl_cons]
    exact ih (acc * 10 + d) hds

theorem valLE_append (l1 l2 : List Nat) :
    valLE (l1 ++ l2) = valLE l1 + 10 ^ l1.length * valLE l2 := by
  induction l1 with
  | nil => simp [valLE]
  | cons d ds ih =>
    show valLE (d :: (ds ++ l2)) = valLE (d :: ds) + 10 ^ (d :: ds).length * valLE l2
    simp only [valLE, ih, List.length_cons]
    ring

theorem foldl_digits_eq (L : List Nat) (acc : Nat) :
    L.foldl (fun a d => a * 10 + d) acc = acc * 10 ^ L.length + valLE L.reverse := by
  induction L generalizing acc with
  | nil => simp [valLE]
  | cons d ds ih =>
    simp only [List.foldl_cons, List.length_cons, List.reverse_cons]
    rw [ih, valLE_append]
    simp only [valLE, List.length_reverse]
    ring

theorem natToDigitsAux_val : ∀ fuel n, n ≤ fuel → valLE (natToDigitsAux fuel n) = n := by
  intro fuel
  induction fuel with
  | zero =>
    intro n hn
    interval_cases n
    rfl
  | succ fuel ih =>
    intro n hn
    match n with
    | 0 => rfl
    | m + 1 =>
      have hlt : (m + 1) / 10 < m + 1 := Nat.div_lt_self (Nat.succ_pos m) (by norm_num)
      have hdiv : (m + 1) / 10 ≤ fuel := by omega
      simp only [natToDigitsAux, valLE, ih _ hdiv]
      omega

theorem valLE_digitsLE (n : Nat) : valLE (digitsLE n) = n :=
  natToDigitsAux_val n n (Nat.le_refl n)

theorem natToDigitsAux_lt : ∀ fuel n d, d ∈ natToDigitsAux fuel n → d < 10 := by
  intro fuel
  induction fuel with
  | zero =>
    intro n d hd
    match n with
    | 0 => simp [natToDigitsAux] at hd
    | m + 1 => simp [natToDigitsAux] at hd
  | succ fuel ih =>
    intro n d hd
    match n with
    | 0 => simp [natToDigitsAux] at hd
    | m + 1 =>
      simp only [natToDigitsAux, List.mem_cons] at hd
      rcases hd with h | h
      · subst h
        exact Nat.mod_lt _ (by norm_num)
      · exact ih _ _ h

theorem digitsLE_ne_nil {n : Nat} (hn : n ≠ 0) : digitsLE n ≠ [] := by
  match n, hn with
  | m + 1, _ =>
    show natToDigitsAux (m + 1) (m + 1) ≠ []
    simp only [natToDigitsAux]
    exact List.cons_ne_nil _ _

theorem rev_digits_cons {n : Nat} (hn : n ≠ 0) :
    ∃ d ds, (digitsLE n).reverse = d :: ds := by
  cases hrev : (digitsLE n).reverse with
  | nil =>
    exfalso
    apply digitsLE_ne_nil hn
    have := congrArg List.reverse hrev
    simpa using this
  | cons d ds => exact ⟨d, ds, rfl⟩

theorem parseDigits_cons (c : Char) (cs : List Char) :
    parseDigits (c :: cs) = parseDigitsAux (c :: cs) 0 := rfl

theorem parseIntChars_cons (c : Char) (cs : List Char) :
    parseIntChars (c :: cs) =
      if c = '-' then
        match parseDigits cs with
        | some n => if n ≤ 2 ^ 63 then some (-(n : Int)) else none
        | none => none
      else if c = '+' then
        match parseDigits cs with
        | some n => if n < 2 ^ 63 then some ((n : Nat) : Int) else none
        | none => none
      else
        match parseDigits (c :: cs) with
        | some n => if n < 2 ^ 63 then some ((n : Nat) : Int) else none
        | none => none := rfl

theorem parseDigitsAux_rev_digits (n d : Nat) (ds : List Nat)
    (hds : (digitsLE n).reverse = d :: ds) :
    parseDigitsAux (digitChar d :: ds.map digitChar) 0 = some n := by
  have hlt : ∀ x ∈ d :: ds, x < 10 := by
    rw [← hds]
    exact fun x hx => natToDigitsAux_lt n n x (List.mem_reverse.mp hx)
  have hmap := parseDigitsAux_map (d :: ds) 0 hlt
  rw [List.map_cons] at hmap
  rw [hmap, foldl_digits_eq, ← hds, List.reverse_reverse, valLE_digitsLE]
  simp

theorem parseDigits_natToString (n : Nat) : parseDigits (natToString n).data = some n := by
  by_cases hn : n = 0
  · subst hn
    decide
  · obtain ⟨d, ds, hds⟩ := rev_digits_cons hn
    have hmap : (natToString n).data = ((digitsLE n).reverse).map digitChar := by
      unfold natToString
      rw [if_neg hn]
    rw [hmap, hds, List.map_cons, parseDigits_cons]
    exact parseDigitsAux_rev_digits n d ds hds

theorem parseIntChars_natToString {n : Nat} (h : n < 2 ^ 63) :
    parseIntChars (natToString n).data = some ((n : Nat) : Int) := by
  by_cases hn : n = 0
  · subst hn
    decide
  · obtain ⟨d, ds, hds⟩ := rev_digits_cons hn
    have hd10 : d < 10 := by
      have hm : d ∈ (digitsLE n).reverse := by
        rw [hds]
        exact List.mem_cons_self _ _
      exact natToDigitsAux_lt n n d (List.mem_reverse.mp hm)
    have hmap : (natToString n).data = ((digitsLE n).reverse).map digitChar := by
      unfold natToString
      rw [if_neg hn]
    rw [hmap, hds, List.map_cons, parseIntChars_cons,
      if_neg (digitChar_ne_minus hd10), if_neg (digitChar_ne_plus hd10),
      parseDigits_cons, parseDigitsAux_rev_digits n d ds hds]
    show (if n < 2 ^ 63 then some ((n : Nat) : Int) else none) = some ((n : Nat) : Int)
    rw [if_pos h]

theorem parseInt_formatInt (v : Int) (h1 : -(2 ^ 63 : Int) ≤ v) (h2 : v < 2 ^ 63) :
    parseInt (formatInt v) = some v := by
  unfold parseInt formatInt
  by_cases hv : v < 0
  · rw [if_pos hv]
    have hdata : ("-" ++ natToString v.natAbs).data = '-' :: (natToString v.natAbs).data := rfl
    rw [hdata, parseIntChars_cons, if_pos rfl, parseDigits_natToString v.natAbs]
    have hle : v.natAbs ≤ 2 ^ 63 := by omega
    have hval : -((v.natAbs : Nat) : Int) = v := by omega
    show (if v.natAbs ≤ 2 ^ 63 then some (-((v.natAbs : Nat) : Int)) else none) = some v
    rw [if_pos hle, hval]
  · rw [if_neg hv]
    have h3 : v.natAbs < 2 ^ 63 := by omega
    rw [parseIntChars_natToString h3]
    have : ((v.natAbs : Nat) : Int) = v := by omega
    rw [this]

end Metadb

namespace Metadb

/-! ### Properties of the codec dispatch and the store operations -/

theorem fromBlobString_bool {F : Type} (M : Float64Model F) {text : String} {b : Bool}
    (h : parseBool text = some b) :
    fromBlobString M text 0 = .ok (.vBool b) := by
  unfold fromBlobString
  rw [if_pos rfl, h]

theorem fromBlobString_int {F : Type} (M : Float64Model F) {text : String} {v : Int}
    (h : parseInt text = some v) :
    fromBlobString M text 1 = .ok (.vInt v) := by
  unfold fromBlobString
  rw [if_neg (by decide), if_pos rfl, h]

theorem fromBlobString_float {F : Type} (M : Float64Model F) {text : String} {f : F}
    (h : M.parse text = some f) :
    fromBlobString M text 2 = .ok (.vFloat f) := by
  unfold fromBlobString
  rw [if_neg (by decide), if_neg (by decide), if_pos rfl, h]

theorem fromBlobString_str {F : Type} (M : Float64Model F) (text : String) :
    fromBlobString M text 3 = .ok (.vStr text) := rfl

theorem getValueType_some {name : String} {db : DB} {e : Entry}
    (h : dbLookup name db = some e) :
    getValueType name db = .ok e.valueType := by
  unfold getValueType
  rw [h]

theorem getValueType_none {name : String} {db : DB}
    (h : dbLookup name db = none) :
    getValueType name db = .error (.noEntry name) := by
  unfold getValueType
  rw [h]

theorem Get_eq_of_lookup {F : Type} (M : Float64Model F) {name : String} {db : DB}
    {e : Entry} (h : dbLookup name db = some e) :
    Get M name db = fromBlobString M e.value e.valueType := by
  unfold Get
  rw [h]

theorem dbLookup_cons_self (name : String) (e : Entry) (db : DB) :
    dbLookup name ((name, e) :: db) = some e := by
  unfold dbLookup
  rw [if_pos rfl]

theorem set_insert {F : Type} (M : Float64Model F) (force : Bool) {name : String}
    {v : Value F} {db : DB} {tag : Nat}
    (henc : toValueType v = .ok tag) (habs : dbLookup name db = none) :
    set M name v force db =
      (.ok (), (name, Entry.mk (driverSerialize M v) tag) :: db) := by
  unfold set
  rw [henc, getValueType_none habs]

theorem set_mismatch {F : Type} (M : Float64Model F) {name : String} {v : Value F}
    {db : DB} {tag : Nat} {e : Entry}
    (henc : toValueType v = .ok tag) (hdb : dbLookup name db = some e)
    (hne : tag ≠ e.valueType) :
    set M name v false db = (.error (.typeMismatch name), db) := by
  unfold set
  rw [henc, getValueType_some hdb]
  show (if false = false ∧ tag ≠ e.valueType then (Except.error (MErr.typeMismatch name), db)
    else (Except.ok (), dbUpdateValue name (driverSerialize M v) db)) =
    (Except.error (MErr.typeMismatch name), db)
  rw [if_pos ⟨rfl, hne⟩]

theorem dbLookup_dbDelete (name : String) (db : DB) :
    dbLookup name (dbDelete name db) = none := by
  induction db with
  | nil => rfl
  | cons p rest ih =>
    obtain ⟨n, e⟩ := p
    unfold dbDelete
    by_cases h : n = name
    · rw [if_pos h]
      exact ih
    · rw [if_neg h]
      unfold dbLookup
      rw [if_neg h]
      exact ih

theorem dbDelete_absent {name : String} {db : DB} (h : dbLookup name db = none) :
    dbDelete name db = db := by
  induction db with
  | nil => rfl
  | cons p rest ih =>
    obtain ⟨n, e⟩ := p
    unfold dbLookup at h
    by_cases hn : n = name
    · rw [if_pos hn] at h
      exact absurd h (by simp)
    · rw [if_neg hn] at h
      unfold dbDelete
      rw [if_neg hn, ih h]

theorem existsEntry_false_iff {name : String} {db : DB} :
    existsEntry name db = false ↔ dbLookup name db = none := by
  unfold existsEntry
  cases dbLookup name db <;> simp

theorem existsEntry_dbDelete (name : String) (db : DB) :
    existsEntry name (dbDelete name db) = false := by
  unfold existsEntry
  rw [dbLookup_dbDelete]
  rfl

theorem Delete_present {name : String} {db : DB} (sup : Bool)
    (h : existsEntry name db = true) :
    Delete name sup db = (.ok (), dbDelete name db) := by
  cases sup <;> simp [Delete, h]

theorem Delete_absent_sup {name : String} {db : DB}
    (h : existsEntry name db = false) :
    Delete name true db = (.error (.noEntry name), db) := by
  have habs := existsEntry_false_iff.mp h
  simp [Delete, h, dbDelete_absent habs]

theorem Delete_absent_nosup {name : String} {db : DB}
    (h : existsEntry name db = false) :
    Delete name false db = (.ok (), db) := by
  have habs := existsEntry_false_iff.mp h
  simp [Delete, dbDelete_absent habs]

end Metadb

namespace Metadb

/-! ### The claims -/

/-- Claim C1 — evaluation of the code at the failing input. The claim says
`forceSet` overwrites both the stored value text and the stored type tag so
that a subsequent `get` returns the new value with its new type. The code's
UPDATE statement sets only the `Value` column: after `Set "foo" true`
(stored as row `("1", 0)`) a `ForceSet "foo" 1873` succeeds but leaves the
tag at 0, so `Get "foo"` tries to parse `"1873"` as a boolean and fails
with the parse-failure error instead of returning the integer 1873. -/
theorem c1_forceSet_keeps_old_tag :
    Set float0 "foo" (Value.vBool true) [] = (.ok (), [("foo", Entry.mk "1" 0)]) ∧
    ForceSet float0 "foo" (Value.vInt 1873) [("foo", Entry.mk "1" 0)] =
      (.ok (), [("foo", Entry.mk "1873" 0)]) ∧
    Get float0 "foo" [("foo", Entry.mk "1873" 0)] = .error .failedToParse :=
  ⟨rfl, rfl, rfl⟩

/-- Claim C2: strict `Set` on an existing entry with a supported value of a
different type always fails with the type-mismatch error and returns the
stored table unchanged. -/
theorem c2_strict_set_type_mismatch {F : Type} (M : Float64Model F)
    (name : String) (v : Value F) (db : DB) (e : Entry) (tag : Nat)
    (hdb : dbLookup name db = some e) (henc : toValueType v = .ok tag)
    (hne : tag ≠ e.valueType) :
    Set M name v db = (.error (.typeMismatch name), db) := by
  unfold Set
  exact set_mismatch M henc hdb hne

/-- Witness for C2 at Scenario B's input: a boolean entry and an integer
write. -/
theorem c2_strict_set_type_mismatch_witness :
    Set float0 "foo" (Value.vInt 1784) [("foo", Entry.mk "1" 0)] =
      (.error (.typeMismatch "foo"), [("foo", Entry.mk "1" 0)]) :=
  c2_strict_set_type_mismatch float0 "foo" (Value.vInt 1784)
    [("foo", Entry.mk "1" 0)] (Entry.mk "1" 0) 1 rfl rfl (by decide)

/-- Claim C3: for every supported value (the integer case constrained to
the 64-bit range of the Go `int` it models), decoding the encoding returns
exactly the value: `fromBlobString` applied to the pair produced by
`toBlobString` yields the value back without error. -/
theorem c3_codec_roundtrip {F : Type} (M : Float64Model F) (v : Value F)
    (hr : v.inRange = true) {text : String} {tag : Nat}
    (henc : toBlobString M v = .ok (text, tag)) :
    fromBlobString M text tag = .ok v := by
  cases v with
  | vBool b =>
    simp only [toBlobString, Except.ok.injEq, Prod.mk.injEq] at henc
    obtain ⟨rfl, rfl⟩ := henc
    exact fromBlobString_bool M (parseBool_formatBool b)
  | vInt n =>
    simp only [toBlobString, Except.ok.injEq, Prod.mk.injEq] at henc
    obtain ⟨rfl, rfl⟩ := henc
    simp only [Value.inRange, Bool.and_eq_true, decide_eq_true_eq] at hr
    exact fromBlobString_int M (parseInt_formatInt n hr.1 hr.2)
  | vFloat f =>
    simp only [toBlobString, Except.ok.injEq, Prod.mk.injEq] at henc
    obtain ⟨rfl, rfl⟩ := henc
    exact fromBlobString_float M (M.parse_formatE f)
  | vStr s =>
    simp only [toBlobString, Except.ok.injEq, Prod.mk.injEq] at henc
    obtain ⟨rfl, rfl⟩ := henc
    exact fromBlobString_str M s
  | vOther d => exact Except.noConfusion henc

/-- Witness for C3 at the integer 583 used by the repository's tests. -/
theorem c3_codec_roundtrip_witness :
    Value.inRange (Value.vInt 583 : Value Unit) = true ∧
    toBlobString float0 (Value.vInt 583) = .ok ("583", 1) ∧
    fromBlobString float0 "583" 1 = .ok (Value.vInt 583) :=
  ⟨by decide, rfl, c3_codec_roundtrip float0 (Value.vInt 583) (by decide) rfl⟩

/-- Claim C4 — counterexample. The claim says a fresh insert stores the
Codec-encoded text (for booleans the lowercase literal "true"). The code
discards the blob string and binds the raw Go value as the SQL parameter,
so `Set "foo" true` on an absent name stores the driver text "1", which
differs from the Codec text "true". -/
theorem c4_insert_counterexample :
    Set float0 "foo" (Value.vBool true) [] = (.ok (), [("foo", Entry.mk "1" 0)]) ∧
    toBlobString float0 (Value.vBool true) = .ok ("true", 0) ∧
    ("1" : String) ≠ "true" :=
  ⟨rfl, rfl, by decide⟩

/-- Claim C4 as amended: for every absent name and every supported value,
`set` (with either force flag, hence both `Set` and `ForceSet`) inserts a
row whose value column holds the driver serialization of the value and
whose tag column holds the tag computed by `toValueType`. -/
theorem c4_insert_driver_text {F : Type} (M : Float64Model F) (name : String)
    (v : Value F) (force : Bool) (db : DB) (tag : Nat)
    (habs : dbLookup name db = none) (henc : toValueType v = .ok tag) :
    set M name v force db =
      (.ok (), (name, Entry.mk (driverSerialize M v) tag) :: db) :=
  set_insert M force henc habs

/-- Witness for the amended C4 at an integer insert into the empty table. -/
theorem c4_insert_driver_text_witness :
    dbLookup "foo" ([] : DB) = none ∧
    toValueType (Value.vInt 27 : Value Unit) = .ok 1 ∧
    set float0 "foo" (Value.vInt 27) false [] = (.ok (), [("foo", Entry.mk "27" 1)]) :=
  ⟨rfl, rfl,
    (c4_insert_driver_text float0 "foo" (Value.vInt 27) false [] 1 rfl rfl).trans rfl⟩

/-- Claim C5: for every absent name and every supported value (integers
constrained to the 64-bit range), `Set` succeeds and a subsequent `Get`
returns exactly the value with its original type. -/
theorem c5_set_then_get {F : Type} (M : Float64Model F) (name : String)
    (v : Value F) (db : DB) (habs : dbLookup name db = none)
    (hs : v.supported = true) (hr : v.inRange = true) :
    (Set M name v db).1 = .ok () ∧ Get M name (Set M name v db).2 = .ok v := by
  cases v with
  | vOther d => simp [Value.supported] at hs
  | vBool b =>
    have henc : toValueType (Value.vBool b : Value F) = .ok 0 := rfl
    have hset := set_insert M false henc habs
    unfold Set
    rw [hset]
    refine ⟨rfl, ?_⟩
    rw [Get_eq_of_lookup M (dbLookup_cons_self name _ db)]
    cases b
    · exact fromBlobString_bool M (show parseBool "0" = some false from rfl)
    · exact fromBlobString_bool M (show parseBool "1" = some true from rfl)
  | vInt n =>
    have henc : toValueType (Value.vInt n : Value F) = .ok 1 := rfl
    have hset := set_insert M false henc habs
    unfold Set
    rw [hset]
    refine ⟨rfl, ?_⟩
    rw [Get_eq_of_lookup M (dbLookup_cons_self name _ db)]
    simp only [Value.inRange, Bool.and_eq_true, decide_eq_true_eq] at hr
    exact fromBlobString_int M (parseInt_formatInt n hr.1 hr.2)
  | vFloat f =>
    have henc : toValueType (Value.vFloat f : Value F) = .ok 2 := rfl
    have hset := set_insert M false henc habs
    unfold Set
    rw [hset]
    refine ⟨rfl, ?_⟩
    rw [Get_eq_of_lookup M (dbLookup_cons_self name _ db)]
    exact fromBlobString_float M (M.parse_formatG f)
  | vStr s =>
    have henc : toValueType (Value.vStr s : Value F) = .ok 3 := rfl
    have hset := set_insert M false henc habs
    unfold Set
    rw [hset]
    refine ⟨rfl, ?_⟩
    rw [Get_eq_of_lookup M (dbLookup_cons_self name _ db)]
    exact fromBlobString_str M s

/-- Witness for C5 at Scenario A's input: a boolean stored under "foo" in
the empty table. -/
theorem c5_set_then_get_witness :
    dbLookup "foo" ([] : DB) = none ∧
    (Set float0 "foo" (Value.vBool true) []).1 = .ok () ∧
    Get float0 "foo" (Set float0 "foo" (Value.vBool true) []).2 =
      .ok (Value.vBool true) :=
  ⟨rfl,
    (c5_set_then_get float0 "foo" (Value.vBool true) [] rfl (by decide) (by decide)).1,
    (c5_set_then_get float0 "foo" (Value.vBool true) [] rfl (by decide) (by decide)).2⟩

/-- Claim C6: decoding with a tag outside 0..3 fails with the unknown-tag
error for every text payload, and `Get` on a row carrying such a tag
returns that error. -/
theorem c6_unknown_tag {F : Type} (M : Float64Model F) (text : String) (tag : Nat)
    (h0 : tag ≠ 0) (h1 : tag ≠ 1) (h2 : tag ≠ 2) (h3 : tag ≠ 3) :
    fromBlobString M text tag = .error .unknownTypeTag ∧
    ∀ (name : String) (db : DB), dbLookup name db = some (Entry.mk text tag) →
      Get M name db = .error .unknownTypeTag := by
  have hfb : fromBlobString M text tag = .error .unknownTypeTag := by
    unfold fromBlobString
    rw [if_neg h0, if_neg h1, if_neg h2, if_neg h3]
  exact ⟨hfb, fun name db hdb => by rw [Get_eq_of_lookup M hdb]; exact hfb⟩

/-- Witness for C6 at the out-of-band tag 100 used by the repository's
tests and by Scenario E. -/
theorem c6_unknown_tag_witness :
    fromBlobString float0 "12.8" 100 = .error .unknownTypeTag ∧
    Get float0 "k" [("k", Entry.mk "12.8" 100)] = .error .unknownTypeTag :=
  ⟨(c6_unknown_tag float0 "12.8" 100 (by decide) (by decide) (by decide) (by decide)).1,
    (c6_unknown_tag float0 "12.8" 100 (by decide) (by decide) (by decide) (by decide)).2
      "k" [("k", Entry.mk "12.8" 100)] rfl⟩

/-- Claim C7: deleting an existing entry succeeds (whether or not the
backend reports affected rows) and a subsequent existence check is false;
deleting an absent entry fails with the no-entry error when the backend
reports affected rows, but is reported successful when it cannot. -/
theorem c7_delete_semantics (name : String) (db : DB) (sup : Bool) :
    (existsEntry name db = true →
      Delete name sup db = (.ok (), dbDelete name db) ∧
      existsEntry name (Delete name sup db).2 = false) ∧
    (existsEntry name db = false → sup = true →
      Delete name sup db = (.error (.noEntry name), db)) ∧
    (existsEntry name db = false → sup = false →
      Delete name sup db = (.ok (), db)) := by
  refine ⟨fun h => ⟨Delete_present sup h, ?_⟩,
    fun h hsup => by subst hsup; exact Delete_absent_sup h,
    fun h hsup => by subst hsup; exact Delete_absent_nosup h⟩
  rw [Delete_present sup h]
  exact existsEntry_dbDelete name db

/-- Witness for C7: deletion of a present row, of an absent row with
affected-row reporting, and of an absent row without it. -/
theorem c7_delete_semantics_witness :
    Delete "foo" true [("foo", Entry.mk "1" 0)] = (.ok (), []) ∧
    existsEntry "foo" (Delete "foo" true [("foo", Entry.mk "1" 0)]).2 = false ∧
    Delete "foo" true ([] : DB) = (.error (.noEntry "foo"), []) ∧
    Delete "foo" false ([] : DB) = (.ok (), []) := by
  have h1 := c7_delete_semantics "foo" [("foo", Entry.mk "1" 0)] true
  have h2 := c7_delete_semantics "foo" [] true
  have h3 := c7_delete_semantics "foo" [] false
  exact ⟨((h1.1 rfl).1).trans rfl, (h1.1 rfl).2, h2.2.1 rfl rfl, h3.2.2 rfl rfl⟩

/-- Claim C8: for every value outside the four supported kinds, `set` with
either force flag (hence both `Set` and `ForceSet`) fails with the
disallowed-type error and returns the stored table unchanged — the
rejection happens before any insert or update. -/
theorem c8_unsupported_type_rejected {F : Type} (M : Float64Model F)
    (name desc : String) (force : Bool) (db : DB) :
    set M name (Value.vOther desc) force db = (.error .disallowedType, db) := rfl

/-- Claim C9: `Get` on a name with no stored row fails with the no-entry
error carrying exactly that name. -/
theorem c9_get_missing {F : Type} (M : Float64Model F) (name : String) (db : DB)
    (h : dbLookup name db = none) :
    Get M name db = .error (.noEntry name) := by
  unfold Get
  rw [h]

/-- Witness for C9 at Scenario D's input: a missing key on the empty
store. -/
theorem c9_get_missing_witness :
    Get float0 "missing-key" [] = .error (.noEntry "missing-key") :=
  c9_get_missing float0 "missing-key" [] rfl

/-- Claim C10: decoding with the boolean tag 0 accepts strictly more texts
than the canonical literals: "1", "0", "t", "T", "TRUE" and "False" all
decode successfully to the corresponding boolean, and none of them equals
"true" or "false". -/
theorem c10_parseBool_liberal :
    fromBlobString float0 "1" 0 = .ok (Value.vBool true) ∧
    fromBlobString float0 "0" 0 = .ok (Value.vBool false) ∧
    fromBlobString float0 "t" 0 = .ok (Value.vBool true) ∧
    fromBlobString float0 "T" 0 = .ok (Value.vBool true) ∧
    fromBlobString float0 "TRUE" 0 = .ok (Value.vBool true) ∧
    fromBlobString float0 "False" 0 = .ok (Value.vBool false) ∧
    ("1" : String) ≠ "true" ∧ ("1" : String) ≠ "false" ∧
    ("0" : String) ≠ "true" ∧ ("0" : String) ≠ "false" ∧
    ("t" : String) ≠ "true" ∧ ("T" : String) ≠ "true" ∧
    ("TRUE" : String) ≠ "true" ∧ ("False" : String) ≠ "false" := by
  refine ⟨rfl, rfl, rfl, rfl, rfl, rfl, ?_, ?_, ?_, ?_, ?_, ?_, ?_, ?_⟩ <;> decide

end Metadb
